import Mathlib

/-!
Verification of the Evidence Scoring & Selection Engine of the
DOUBLE_A Discovery Challenge repository.

The embedding follows `src/main.py` (selection pipeline) and
`src/scraper.py` (report-link year bonus).  Python floats are modelled
as exact rationals: every score produced by the pipeline is a product
of the values 0, 1/5, 2/5, 3/5, 4/5, 1 (year multipliers) and
0, 1/2, 3/4, 1, k/4 (partial scores), all exactly representable, and
every comparison performed by the code is between such products.
Python's `list.sort(key=..., reverse=True)` is a stable descending
sort; any stable sort with respect to the same total preorder produces
the same list, so it is embedded as a stable insertion sort `sortS`.
-/

namespace Discovery

/-! ### A stable sort, parameterised by a boolean "may come before" relation

`insertS le x l` places `x` before the first element `y` of `l` with
`le x y`.  When `le` is a total preorder this yields a stable sort:
an element inserted later is placed after all earlier elements it is
equivalent to. -/

def insertS (le : α → α → Bool) (x : α) : List α → List α
  | [] => [x]
  | y :: ys => if le x y then x :: y :: ys else y :: insertS le x ys

def sortS (le : α → α → Bool) : List α → List α
  | [] => []
  | x :: xs => insertS le x (sortS le xs)

/-! ### Data model

`Doc` is one entry of `analyzed_docs_raw` in `process_company_urls`
(`src/main.py` lines 165-193).  The Python record is a dict; fields
that may be absent or `None` are `Option`s.  The error records built
at lines 171 and 177 carry a key `"type"`, modelled as `type_tag`;
that key is only ever written, never read, by the selection code. -/

structure DataPoints where
  country_hq : String := "UNKNOWN"
  employees : String := "UNKNOWN"
  net_turnover : String := "UNKNOWN"
  total_assets : String := "UNKNOWN"
deriving DecidableEq

structure Doc where
  url : String
  error : Option String := none
  type_tag : Option String := none
  content_type : Option String := none
  ref_year_int : Option Int := none
  is_direct_file_link : Option String := none
  data_points_present : Option DataPoints := none
  llm_ref_year_str : String := "UNKNOWN"
deriving DecidableEq

/-- Python truthiness of `doc.get("error")` (lines 199 and 297): a
`None` or empty-string error is falsy. -/
def hasError (d : Doc) : Bool := d.error.getD "" ≠ ""

inductive Category where
  | ERROR
  | UNKNOWN
  | POTENTIAL_FIN_REP
  | POTENTIAL_OTHER_FINANCIAL_DATA_PAGE
  | POTENTIAL_OTHER_REPORT_LANDING_PAGE
  | POTENTIAL_OTHER_GENERIC
  | DEMOTED_FIN_REP_AS_OTHER
deriving DecidableEq

/-- A `Doc` after the scoring pass of the selection engine
(`calculated_score`, `selection_category`, `final_type_for_csv`). -/
structure ScoredDoc where
  doc : Doc
  calculated_score : ℚ
  selection_category : Category
  final_type_for_csv : Option String := none
deriving DecidableEq

/-! ### `get_year_multiplier` (`src/main.py` lines 22-30) -/

/-- `get_year_multiplier(year)`.  `none` models a missing/`None` year
(Python also returns 0.0 for non-`int` input, inexpressible here).
The `y = 0` test mirrors Python's `not year`, which is true for `0`;
both paths return `0` for that year anyway. -/
def get_year_multiplier : Option Int → ℚ
  | none => 0
  | some y =>
    if y = 0 then 0
    else if 2023 ≤ y then 1
    else if y = 2022 then 4/5
    else if y = 2021 then 3/5
    else if y = 2020 then 2/5
    else if y = 2019 then 1/5
    else 0

/-- Line 240: `get_year_multiplier(ref_year_int) if ref_year_int else 0`.
Python truthiness makes both `None` and `0` take the `else 0` branch. -/
def truthy_year_multiplier : Option Int → ℚ
  | none => 0
  | some y => if y = 0 then 0 else get_year_multiplier (some y)

/-! ### Per-document scoring and categorisation (lines 198-249) -/

/-- Number of `"YES"` values among `data_points_present`
(line 220 / 242); a missing dict counts as `{}`. -/
def numPresent (dp : Option DataPoints) : Nat :=
  match dp with
  | none => 0
  | some p => [p.country_hq, p.employees, p.net_turnover, p.total_assets].count "YES"

/-- `par_sc` for data-point based scoring (lines 221-223 / 243-245). -/
def par_sc (dp : Option DataPoints) : ℚ :=
  if 2 ≤ numPresent dp then (numPresent dp : ℚ) / 4 else 0

/-- The scoring/categorisation branch of lines 198-249, one document. -/
def scoreDoc (d : Doc) : ScoredDoc :=
  if hasError d then ⟨d, 0, .ERROR, none⟩
  else if d.content_type = some "ANNUAL_FINANCIAL_REPORT_DOCUMENT" ∧
      d.is_direct_file_link = some "YES" ∧ d.ref_year_int ≠ none then
    ⟨d, 1 * get_year_multiplier d.ref_year_int, .POTENTIAL_FIN_REP, none⟩
  else if d.content_type = some "FINANCIAL_DATA_PAGE" ∧ d.ref_year_int ≠ none then
    ⟨d, par_sc d.data_points_present * get_year_multiplier d.ref_year_int,
      .POTENTIAL_OTHER_FINANCIAL_DATA_PAGE, none⟩
  else if d.content_type = some "ANNUAL_FINANCIAL_REPORT_DOCUMENT" ∧
      ¬ d.is_direct_file_link = some "YES" ∧ d.ref_year_int ≠ none then
    ⟨d, 1/2 * get_year_multiplier d.ref_year_int, .POTENTIAL_OTHER_REPORT_LANDING_PAGE, none⟩
  else
    ⟨d, par_sc d.data_points_present * truthy_year_multiplier d.ref_year_int,
      .POTENTIAL_OTHER_GENERIC, none⟩

/-! ### Sort keys (lines 251, 278-279, 303-312) -/

/-- Lexicographic `≤` on a `(score, year)` pair, as Python compares
the sort-key tuples. -/
def lexQILe (x y : ℚ × Int) : Bool :=
  decide (x.1 < y.1 ∨ (x.1 = y.1 ∧ x.2 ≤ y.2))

/-- Key of line 251: `(calculated_score, ref_year_int or 0)`. -/
def finKey (s : ScoredDoc) : ℚ × Int :=
  (s.calculated_score, s.doc.ref_year_int.getD 0)

/-- `reverse=True` stable sort: `a` may precede `b` iff `key a ≥ key b`. -/
def finLe (a b : ScoredDoc) : Bool := lexQILe (finKey b) (finKey a)

/-- Key of lines 278-279: `(calculated_score, ref_year_int or -1)`. -/
def poolKey (s : ScoredDoc) : ℚ × Int :=
  (s.calculated_score, s.doc.ref_year_int.getD (-1))

def poolLe (a b : ScoredDoc) : Bool := lexQILe (poolKey b) (poolKey a)

/-- `content_type_pref` of lines 305-311. -/
def ctypePref (d : Doc) : Nat :=
  if d.content_type = some "ANNUAL_FINANCIAL_REPORT_DOCUMENT" then 3
  else if d.content_type = some "FINANCIAL_DATA_PAGE" then 2
  else if d.content_type = some "INVESTOR_HUB_OR_INDEX" then 1
  else 0

/-- Lexicographic `≤` on a `(year, pref, score)` triple. -/
def lexINQLe (x y : Int × Nat × ℚ) : Bool :=
  decide (x.1 < y.1 ∨ (x.1 = y.1 ∧
    (x.2.1 < y.2.1 ∨ (x.2.1 = y.2.1 ∧ x.2.2 ≤ y.2.2))))

/-- `sort_key_for_fillers` (lines 303-312). -/
def fillerKey (s : ScoredDoc) : Int × Nat × ℚ :=
  (s.doc.ref_year_int.getD (-1), ctypePref s.doc, s.calculated_score)

def fillerLe (a b : ScoredDoc) : Bool := lexINQLe (fillerKey b) (fillerKey a)

/-! ### The selection pipeline (`process_company_urls`, lines 195-323) -/

/-- The scored form of `analyzed_docs_raw`: the categorisation loop of
lines 198-249 mutates each raw dict in place. -/
def scoreAll (l : List Doc) : List ScoredDoc := l.map scoreDoc

/-- `potential_fin_reps` (appended in input order by the loop). -/
def potential_fin_reps (l : List Doc) : List ScoredDoc :=
  (scoreAll l).filter fun s => decide (s.selection_category = .POTENTIAL_FIN_REP)

/-- `potential_other_sources`: every non-`POTENTIAL_FIN_REP` document,
including `ERROR` ones (line 202). -/
def potential_other_sources (l : List Doc) : List ScoredDoc :=
  (scoreAll l).filter fun s => decide (¬ s.selection_category = .POTENTIAL_FIN_REP)

/-- Line 251: in-place stable sort of `potential_fin_reps` by
`(calculated_score, ref_year_int or 0)` descending. -/
def sorted_fin_reps (l : List Doc) : List ScoredDoc :=
  sortS finLe (potential_fin_reps l)

/-- Lines 253-257: the primary (`chosen_fin_rep`), if the top sorted
candidate has a strictly positive score. -/
def chosen_fin_rep (l : List Doc) : Option ScoredDoc :=
  match sorted_fin_reps l with
  | [] => none
  | top :: _ =>
    if 0 < top.calculated_score then some { top with final_type_for_csv := some "FIN_REP" }
    else none

/-- The guard of lines 262 and 272: keep a document unless a primary
was chosen and has the same URL. -/
def not_chosen_url (c : Option ScoredDoc) (s : ScoredDoc) : Bool :=
  match c with
  | none => true
  | some ch => decide (¬ s.doc.url = ch.doc.url)

/-- Lines 263-268: demotion of a non-chosen potential fin rep. -/
def demote (s : ScoredDoc) : ScoredDoc :=
  { s with
    calculated_score := 3/4 * get_year_multiplier s.doc.ref_year_int,
    selection_category := .DEMOTED_FIN_REP_AS_OTHER,
    final_type_for_csv := some "OTHER" }

/-- Lines 274-275: copy with `final_type_for_csv = "OTHER"`. -/
def markOther (s : ScoredDoc) : ScoredDoc :=
  { s with final_type_for_csv := some "OTHER" }

/-- `all_potential_other_sources` before sorting (lines 259-276):
demoted fin reps (iterated in sorted order), then the other sources
(input order), each skipping the chosen URL. -/
def all_potential_other_sources (l : List Doc) : List ScoredDoc :=
  ((sorted_fin_reps l).filter (not_chosen_url (chosen_fin_rep l))).map demote ++
    ((potential_other_sources l).filter (not_chosen_url (chosen_fin_rep l))).map markOther

/-- Lines 278-279: stable sort of the pool by
`(calculated_score, ref_year_int or -1)` descending. -/
def sorted_pool (l : List Doc) : List ScoredDoc :=
  sortS poolLe (all_potential_other_sources l)

/-- Lines 282-284: `seen_urls_for_output` seeded with the chosen URL. -/
def seen0 (l : List Doc) : List String :=
  match chosen_fin_rep l with
  | none => []
  | some c => [c.doc.url]

/-- The selection loop of lines 286-292: take up to 5 pool entries,
skipping seen URLs and zero-evidence entries (score 0 and unknown
year).  Returns the selected list and the final seen set. -/
def selectLoop : List ScoredDoc → List String → List ScoredDoc → List ScoredDoc × List String
  | [], seen, acc => (acc, seen)
  | s :: rest, seen, acc =>
    if 5 ≤ acc.length then (acc, seen)
    else if seen.contains s.doc.url then selectLoop rest seen acc
    else if 0 < s.calculated_score ∨ ¬ s.doc.ref_year_int = none then
      selectLoop rest (s.doc.url :: seen) (acc ++ [s])
    else selectLoop rest seen acc

/-- `remaining_raw_docs_to_consider` (lines 295-301): unseen non-error
raw documents, retagged `OTHER`. -/
def backfill_pool (l : List Doc) (seen : List String) : List ScoredDoc :=
  ((scoreAll l).filter fun s => !hasError s.doc && !seen.contains s.doc.url).map markOther

/-- The backfill loop of lines 316-321. -/
def fillLoop : List ScoredDoc → List String → List ScoredDoc → List ScoredDoc
  | [], _, acc => acc
  | s :: rest, seen, acc =>
    if 5 ≤ acc.length then acc
    else if seen.contains s.doc.url then fillLoop rest seen acc
    else fillLoop rest (s.doc.url :: seen) (acc ++ [s])

/-- `final_other_reports` after selection and (if needed) backfill
(lines 281-321). -/
def final_other_reports (l : List Doc) : List ScoredDoc :=
  let sel := selectLoop (sorted_pool l) (seen0 l) []
  if sel.1.length < 5 then
    fillLoop (sortS fillerLe (backfill_pool l sel.2)) sel.2 sel.1
  else sel.1

/-- The value returned by `process_company_urls` (line 323), as a
function of the classified documents. -/
def processSelect (l : List Doc) : Option ScoredDoc × List ScoredDoc :=
  (chosen_fin_rep l, final_other_reports l)

/-! ### Per-company CSV rows (`main`, lines 430-485) -/

structure Row where
  ID : String
  NAME : String
  TYPE : String
  SRC : String
  REFYEAR : String
deriving DecidableEq

/-- The `FIN_REP` row (lines 454-464).  `str(best_fin_rep.get("ref_year_int", ""))`:
a chosen fin rep always carries a known integer year (its score is
positive), so the `none` branch is unreachable. -/
def finRepRow (cid name : String) (best : Option ScoredDoc) : Row :=
  { ID := cid, NAME := name, TYPE := "FIN_REP",
    SRC := match best with
      | some b => b.doc.url
      | none => "",
    REFYEAR := match best with
      | some b => (match b.doc.ref_year_int with
        | some y => toString y
        | none => "")
      | none => "" }

/-- `year_str` of lines 470-472. -/
def otherYearStr (s : ScoredDoc) : String :=
  let ys := match s.doc.ref_year_int with
    | some y => toString y
    | none => s.doc.llm_ref_year_str
  if ys = "UNKNOWN" then "" else ys

/-- One `OTHER` row (lines 467-482), `none` = placeholder. -/
def otherRow (cid name : String) (o : Option ScoredDoc) : Row :=
  { ID := cid, NAME := name, TYPE := "OTHER",
    SRC := match o with
      | some s => s.doc.url
      | none => "",
    REFYEAR := match o with
      | some s => otherYearStr s
      | none => "" }

/-- The six rows emitted for one company (lines 430-485), as a
function of the company's classified candidate documents.  `main`
builds one classified document per discovered URL, so the candidate
set is empty exactly when this list is empty (lines 430-441). -/
def company_output_rows (cid name : String) (docs : List Doc) : List Row :=
  if docs.isEmpty then
    (List.range 6).map fun i =>
      { ID := cid, NAME := name, TYPE := if i = 0 then "FIN_REP" else "OTHER",
        SRC := "", REFYEAR := "" }
  else
    finRepRow cid name (processSelect docs).1 ::
      (List.range 5).map fun i => otherRow cid name (processSelect docs).2[i]?

/-! ### The classifier adapter (`src/main.py` lines 99-193)

External effects are modelled by oracles: `fetch url` is the
`(title, snippet)` pair returned by `fetch_content_snippet` (which
catches all its exceptions and signals failure through the sentinel
titles `"Fetch Error"` / `"Processing Error"`), and `oracle i` is the
outcome of the `i`-th Gemini attempt — an exception (`Except.error`)
or a response whose `extract_json_from_response` result is a JSON
value.  A raised exception that the code does not catch is modelled
as an `Except.error` return of `classify_url`. -/

/-- The JSON value found in the `"ref_year"` slot of the LLM's
response object. -/
inductive RefYearJson where
  | absent
  | jnull
  | jstr (s : String)
  | jint (n : Int)
deriving DecidableEq

/-- The schema-relevant keys of a JSON object returned by the LLM. -/
structure LlmResult where
  url : Option String := none
  content_type : Option String := none
  ref_year : RefYearJson := .absent
  is_direct_file_link : Option String := none
  data_points_present : Option DataPoints := none
deriving DecidableEq

/-- The result of `extract_json_from_response` on one LLM response:
`jnothing` = Python `None`; `jfalsy` = a falsy JSON value (`{}`, `[]`,
`""`, `0`); `jobj` = a truthy JSON object; `jother` = a truthy
non-object JSON value (list, string, number). -/
inductive LlmJson where
  | jnothing
  | jfalsy
  | jobj (r : LlmResult)
  | jother
deriving DecidableEq

/-- Trace of one `call_llm_for_analysis` run: its return value, the
number of Gemini calls made, and the list of `sleep` durations. -/
structure LlmCallTrace where
  result : LlmJson
  attemptsMade : Nat
  sleeps : List Nat
deriving DecidableEq

/-- The retry loop of lines 144-162.  A successful attempt returns
`extract_json_from_response(response_text)` immediately (even when
that is `None`); a raising attempt sleeps `retryDelay` and retries,
up to `retries` attempts in total; on exhaustion the function returns
`{}` (falsy, hence `jfalsy`). -/
def call_llm_go (oracle : Nat → Except String LlmJson) (retryDelay : Nat) :
    Nat → Nat → List Nat → LlmCallTrace
  | 0, made, sleeps => ⟨.jfalsy, made, sleeps⟩
  | fuel + 1, made, sleeps =>
    match oracle made with
    | .ok j => ⟨j, made + 1, sleeps⟩
    | .error _ =>
      if 0 < fuel then call_llm_go oracle retryDelay fuel (made + 1) (sleeps ++ [retryDelay])
      else ⟨.jfalsy, made + 1, sleeps⟩

/-- `call_llm_for_analysis` (lines 99-162) with its default
`number_of_retries=3`, `retry_delay=2`. -/
def call_llm_for_analysis (oracle : Nat → Except String LlmJson)
    (retries : Nat := 3) (retryDelay : Nat := 2) : LlmCallTrace :=
  call_llm_go oracle retryDelay retries 0 []

/-- Lines 183-191: derive `ref_year_int` / `llm_ref_year_str` from
the `"ref_year"` value.  Returns `Except.error` for the uncaught
`TypeError` of `int(None)` (only `ValueError` is caught). -/
def parse_ref_year : RefYearJson → Except String (Option Int × String)
  | .absent => .ok (none, "UNKNOWN")
  | .jnull => .error "TypeError: int() argument must not be NoneType (line 186)"
  | .jstr s =>
    if s = "UNKNOWN" then .ok (none, s)
    else match s.toInt? with
      | some n => .ok (some n, s)
      | none => .ok (none, "UNKNOWN")
  | .jint n => .ok (some n, toString n)

/-- One iteration of the per-URL loop of lines 167-193: the
classification of a single URL.  `Except.error` models an exception
escaping `process_company_urls`. -/
def classify_url (fetch : String → String × String)
    (oracle : Nat → Except String LlmJson) (url : String) : Except String Doc :=
  let ts := fetch url
  if ts.1 = "Fetch Error" ∨ ts.1 = "Processing Error" then
    .ok { url := url, error := some ts.2, type_tag := some "ERROR" }
  else
    match (call_llm_for_analysis oracle).result with
    | .jnothing => .ok { url := url, error := some "LLM analysis failed", type_tag := some "ERROR" }
    | .jfalsy => .ok { url := url, error := some "LLM analysis failed", type_tag := some "ERROR" }
    | .jother => .error "TypeError: doc_info.update() with a non-dict argument (line 181)"
    | .jobj r =>
      match parse_ref_year r.ref_year with
      | .error e => .error e
      | .ok (ryi, rys) =>
        .ok { url := r.url.getD url
              content_type := r.content_type
              ref_year_int := ryi
              is_direct_file_link := r.is_direct_file_link
              data_points_present := r.data_points_present
              llm_ref_year_str := rys }

/-! ### The report-link "any recent year" bonus
(`src/scraper.py` lines 276-278 and 308-314)

`any_year_regex = re.compile(r'\b(19[89]\d|20\d{2})\b')` is embedded
directly: a match is a 4-digit window fitting `19[89]\d` or `20\d{2}`
with a word boundary on each side.  `re.search` returns the leftmost
match, i.e. the head of the list of all matches. -/

/-- `\d` of the regex. -/
def isDig (c : Char) : Bool := 48 ≤ c.toNat && c.toNat ≤ 57

/-- `\w` for the word-boundary `\b` (ASCII view). -/
def isWordChar (c : Char) : Bool := c.isAlphanum || c = '_'

/-- `\b` holds before the window: start of string or non-word char. -/
def boundaryBefore : Option Char → Bool
  | none => true
  | some c => !isWordChar c

/-- `\b` holds after the window: end of string or non-word char. -/
def boundaryAfter : List Char → Bool
  | [] => true
  | c :: _ => !isWordChar c

/-- The window matches `19[89]\d|20\d{2}`. -/
def matchesYearPattern (a b c d : Char) : Bool :=
  (a = '1' && b = '9' && (c = '8' || c = '9') && isDig d) ||
  (a = '2' && b = '0' && isDig c && isDig d)

/-- `int(match.group(0))`. -/
def yearVal (a b c d : Char) : Nat :=
  1000 * (a.toNat - 48) + 100 * (b.toNat - 48) + 10 * (c.toNat - 48) + (d.toNat - 48)

/-- All matches of `any_year_regex`, left to right.  `prev` is the
character preceding the scan position (`none` at the start). -/
def allYearMatchesAux : Option Char → List Char → List Nat
  | _, [] => []
  | prev, a :: rest =>
    (match rest with
     | b :: c :: d :: rest2 =>
       if boundaryBefore prev && matchesYearPattern a b c d && boundaryAfter rest2 then
         [yearVal a b c d]
       else []
     | _ => []) ++ allYearMatchesAux (some a) rest

def allYearMatches (s : String) : List Nat := allYearMatchesAux none s.data

/-- `any_year_regex.search(s)`: the leftmost match, if any. -/
def searchYear (s : String) : Option Nat := (allYearMatches s).head?

/-- Lines 308-314, executed when no configured target year matched
the link: `match = any_year_regex.search(link_text) or
any_year_regex.search(normalized_href)`, then `score += 2` iff
`int(match.group(0)) >= int(target_years[0]) - 5`.  Returns the score
increment. -/
def any_recent_year_bonus (firstTargetYear : Int) (link_text normalized_href : String) : Nat :=
  match (searchYear link_text).orElse (fun _ => searchYear normalized_href) with
  | some y => if firstTargetYear - 5 ≤ (y : Int) then 2 else 0
  | none => 0

/-- Modelled from the spec (§4.1 step 2): "+2 if any 4-digit year in
the plausible range [firstTargetYear−5, currentYear] is present" in
the link's text or href.  Used only to compare the spec's wording
with the code's behaviour. -/
def spec_recent_year_bonus (firstTargetYear currentYear : Int)
    (link_text normalized_href : String) : Nat :=
  if (allYearMatches link_text ++ allYearMatches normalized_href).any
      (fun y => decide (firstTargetYear - 5 ≤ (y : Int)) && decide ((y : Int) ≤ currentYear))
  then 2 else 0

/-- `TARGET_YEARS` of `src/config.py`, as integers; the first entry
is the `target_years[0]` used by the bonus rule. -/
def TARGET_YEARS : List Int := [2024, 2023, 2022, 2021, 2020]

/-! ## Properties of the stable sort -/

theorem insertS_perm (le : α → α → Bool) (x : α) (l : List α) :
    List.Perm (insertS le x l) (x :: l) := by
  induction l with
  | nil => simp [insertS]
  | cons y ys ih =>
    simp only [insertS]
    split
    · exact List.Perm.refl _
    · exact (ih.cons y).trans (List.Perm.swap x y ys)

theorem sortS_perm (le : α → α → Bool) (l : List α) : List.Perm (sortS le l) l := by
  induction l with
  | nil => simp [sortS]
  | cons x xs ih => exact (insertS_perm le x (sortS le xs)).trans (ih.cons x)

theorem mem_sortS {le : α → α → Bool} {l : List α} {a : α} : a ∈ sortS le l ↔ a ∈ l :=
  (sortS_perm le l).mem_iff

theorem mem_insertS {le : α → α → Bool} {x a : α} {l : List α} :
    a ∈ insertS le x l ↔ a = x ∨ a ∈ l := by
  rw [(insertS_perm le x l).mem_iff]; exact List.mem_cons

theorem pairwise_insertS (le : α → α → Bool)
    (htot : ∀ a b, le a b = true ∨ le b a = true)
    (htrans : ∀ a b c, le a b = true → le b c = true → le a c = true)
    (x : α) {l : List α} (h : l.Pairwise fun a b => le a b = true) :
    (insertS le x l).Pairwise fun a b => le a b = true := by
  induction l with
  | nil => simp [insertS]
  | cons y ys ih =>
    rw [List.pairwise_cons] at h
    simp only [insertS]
    by_cases hxy : le x y = true
    · rw [if_pos hxy, List.pairwise_cons]
      refine ⟨?_, List.pairwise_cons.mpr h⟩
      intro b hb
      rcases List.mem_cons.mp hb with rfl | hb
      · exact hxy
      · exact htrans x y b hxy (h.1 b hb)
    · rw [if_neg hxy, List.pairwise_cons]
      refine ⟨?_, ih h.2⟩
      intro b hb
      rcases mem_insertS.mp hb with rfl | hb
      · rcases htot b y with hx | hy'
        · exact absurd hx hxy
        · exact hy'
      · exact h.1 b hb

theorem sortS_pairwise (le : α → α → Bool)
    (htot : ∀ a b, le a b = true ∨ le b a = true)
    (htrans : ∀ a b c, le a b = true → le b c = true → le a c = true)
    (l : List α) : (sortS le l).Pairwise fun a b => le a b = true := by
  induction l with
  | nil => simp [sortS]
  | cons x xs ih => exact pairwise_insertS le htot htrans x ih

/-- Two sorted lists that are permutations of one another are equal,
assuming the order is antisymmetric on the elements of the first. -/
theorem eq_of_perm_of_pairwise {R : α → α → Prop} :
    ∀ {l₁ l₂ : List α}, List.Perm l₁ l₂ → l₁.Pairwise R → l₂.Pairwise R →
      (∀ a ∈ l₁, ∀ b ∈ l₁, R a b → R b a → a = b) → l₁ = l₂ := by
  intro l₁
  induction l₁ with
  | nil => intro l₂ p _ _ _; exact (p.symm.eq_nil).symm
  | cons a t₁ ih =>
    intro l₂ p hp₁ hp₂ hanti
    cases l₂ with
    | nil => exact absurd p.eq_nil (List.cons_ne_nil a t₁)
    | cons b t₂ =>
      have hab : a = b := by
        by_cases h : a = b
        · exact h
        · have ha2 : a ∈ b :: t₂ := p.mem_iff.mp (List.mem_cons_self a t₁)
          have hb1 : b ∈ a :: t₁ := p.mem_iff.mpr (List.mem_cons_self b t₂)
          have ha2' : a ∈ t₂ := by
            rcases List.mem_cons.mp ha2 with h' | h'
            · exact absurd h' h
            · exact h'
          have hb1' : b ∈ t₁ := by
            rcases List.mem_cons.mp hb1 with h' | h'
            · exact absurd h'.symm h
            · exact h'
          exact hanti a (List.mem_cons_self a t₁) b (List.mem_cons_of_mem a hb1')
            ((List.pairwise_cons.mp hp₁).1 b hb1') ((List.pairwise_cons.mp hp₂).1 a ha2')
      subst hab
      have h' := ih p.cons_inv (List.pairwise_cons.mp hp₁).2 (List.pairwise_cons.mp hp₂).2
        (fun x hx y hy => hanti x (List.mem_cons_of_mem a hx) y (List.mem_cons_of_mem a hy))
      rw [h']

/-- The stable sort is insensitive to the enumeration order of its
input when the order relation is antisymmetric on its elements. -/
theorem sortS_eq_of_perm (le : α → α → Bool)
    (htot : ∀ a b, le a b = true ∨ le b a = true)
    (htrans : ∀ a b c, le a b = true → le b c = true → le a c = true)
    {l₁ l₂ : List α} (p : List.Perm l₁ l₂)
    (hanti : ∀ a ∈ l₁, ∀ b ∈ l₁, le a b = true → le b a = true → a = b) :
    sortS le l₁ = sortS le l₂ := by
  refine eq_of_perm_of_pairwise
    ((sortS_perm le l₁).trans (p.trans (sortS_perm le l₂).symm))
    (sortS_pairwise le htot htrans l₁)
    (sortS_pairwise le htot htrans l₂) ?_
  intro a ha b hb hab hba
  exact hanti a (mem_sortS.mp ha) b (mem_sortS.mp hb) hab hba

/-! ## Properties of the lexicographic key comparisons -/

theorem lexQILe_total (x y : ℚ × Int) : lexQILe x y = true ∨ lexQILe y x = true := by
  simp only [lexQILe, decide_eq_true_eq]
  rcases lt_trichotomy x.1 y.1 with h | h | h
  · exact Or.inl (Or.inl h)
  · rcases le_total x.2 y.2 with h2 | h2
    · exact Or.inl (Or.inr ⟨h, h2⟩)
    · exact Or.inr (Or.inr ⟨h.symm, h2⟩)
  · exact Or.inr (Or.inl h)

theorem lexQILe_trans {x y z : ℚ × Int} (h1 : lexQILe x y = true) (h2 : lexQILe y z = true) :
    lexQILe x z = true := by
  simp only [lexQILe, decide_eq_true_eq] at h1 h2 ⊢
  rcases h1 with h1 | ⟨h1, h1'⟩ <;> rcases h2 with h2 | ⟨h2, h2'⟩
  · exact Or.inl (lt_trans h1 h2)
  · exact Or.inl (h2 ▸ h1)
  · exact Or.inl (h1 ▸ h2)
  · exact Or.inr ⟨h1.trans h2, le_trans h1' h2'⟩

theorem lexQILe_antisymm {x y : ℚ × Int} (h1 : lexQILe x y = true) (h2 : lexQILe y x = true) :
    x = y := by
  simp only [lexQILe, decide_eq_true_eq] at h1 h2
  rcases h1 with h1 | ⟨h1, h1'⟩ <;> rcases h2 with h2 | ⟨h2, h2'⟩
  · exact absurd h2 (lt_asymm h1)
  · exact absurd h1 (h2 ▸ lt_irrefl x.1)
  · exact absurd h2 (h1 ▸ lt_irrefl x.1)
  · exact Prod.ext_iff.mpr ⟨h1, le_antisymm h1' h2'⟩

theorem lexINQLe_total (x y : Int × Nat × ℚ) : lexINQLe x y = true ∨ lexINQLe y x = true := by
  simp only [lexINQLe, decide_eq_true_eq]
  rcases lt_trichotomy x.1 y.1 with h | h | h
  · exact Or.inl (Or.inl h)
  · rcases lt_trichotomy x.2.1 y.2.1 with g | g | g
    · exact Or.inl (Or.inr ⟨h, Or.inl g⟩)
    · rcases le_total x.2.2 y.2.2 with k | k
      · exact Or.inl (Or.inr ⟨h, Or.inr ⟨g, k⟩⟩)
      · exact Or.inr (Or.inr ⟨h.symm, Or.inr ⟨g.symm, k⟩⟩)
    · exact Or.inr (Or.inr ⟨h.symm, Or.inl g⟩)
  · exact Or.inr (Or.inl h)

theorem lexINQLe_trans {x y z : Int × Nat × ℚ}
    (h1 : lexINQLe x y = true) (h2 : lexINQLe y z = true) : lexINQLe x z = true := by
  simp only [lexINQLe, decide_eq_true_eq] at h1 h2 ⊢
  rcases h1 with h1 | ⟨h1, g1⟩
  · rcases h2 with h2 | ⟨h2, _⟩
    · exact Or.inl (lt_trans h1 h2)
    · exact Or.inl (h2 ▸ h1)
  · rcases h2 with h2 | ⟨h2, g2⟩
    · exact Or.inl (h1 ▸ h2)
    · refine Or.inr ⟨h1.trans h2, ?_⟩
      rcases g1 with g1 | ⟨g1, k1⟩
      · rcases g2 with g2 | ⟨g2, _⟩
        · exact Or.inl (lt_trans g1 g2)
        · exact Or.inl (g2 ▸ g1)
      · rcases g2 with g2 | ⟨g2, k2⟩
        · exact Or.inl (g1 ▸ g2)
        · exact Or.inr ⟨g1.trans g2, le_trans k1 k2⟩

theorem lexINQLe_antisymm {x y : Int × Nat × ℚ}
    (h1 : lexINQLe x y = true) (h2 : lexINQLe y x = true) : x = y := by
  simp only [lexINQLe, decide_eq_true_eq] at h1 h2
  rcases h1 with h1 | ⟨h1, g1⟩
  · rcases h2 with h2 | ⟨h2, _⟩
    · exact absurd h2 (lt_asymm h1)
    · exact absurd h1 (h2 ▸ lt_irrefl x.1)
  · rcases h2 with h2 | ⟨h2, g2⟩
    · exact absurd h2 (h1 ▸ lt_irrefl x.1)
    · refine Prod.ext_iff.mpr ⟨h1, ?_⟩
      rcases g1 with g1 | ⟨g1, k1⟩
      · rcases g2 with g2 | ⟨g2, _⟩
        · exact absurd g2 (lt_asymm g1)
        · exact absurd g1 (g2 ▸ lt_irrefl x.2.1)
      · rcases g2 with g2 | ⟨g2, k2⟩
        · exact absurd g2 (g1 ▸ lt_irrefl x.2.1)
        · exact Prod.ext_iff.mpr ⟨g1, le_antisymm k1 k2⟩

theorem finLe_total : ∀ a b : ScoredDoc, finLe a b = true ∨ finLe b a = true :=
  fun a b => lexQILe_total (finKey b) (finKey a)

theorem finLe_trans : ∀ a b c : ScoredDoc,
    finLe a b = true → finLe b c = true → finLe a c = true :=
  fun _ _ _ h1 h2 => lexQILe_trans h2 h1

theorem finLe_key_eq {a b : ScoredDoc} (h1 : finLe a b = true) (h2 : finLe b a = true) :
    finKey a = finKey b :=
  lexQILe_antisymm h2 h1

theorem poolLe_total : ∀ a b : ScoredDoc, poolLe a b = true ∨ poolLe b a = true :=
  fun a b => lexQILe_total (poolKey b) (poolKey a)

theorem poolLe_trans : ∀ a b c : ScoredDoc,
    poolLe a b = true → poolLe b c = true → poolLe a c = true :=
  fun _ _ _ h1 h2 => lexQILe_trans h2 h1

theorem poolLe_key_eq {a b : ScoredDoc} (h1 : poolLe a b = true) (h2 : poolLe b a = true) :
    poolKey a = poolKey b :=
  lexQILe_antisymm h2 h1

theorem fillerLe_total : ∀ a b : ScoredDoc, fillerLe a b = true ∨ fillerLe b a = true :=
  fun a b => lexINQLe_total (fillerKey b) (fillerKey a)

theorem fillerLe_trans : ∀ a b c : ScoredDoc,
    fillerLe a b = true → fillerLe b c = true → fillerLe a c = true :=
  fun _ _ _ h1 h2 => lexINQLe_trans h2 h1

theorem fillerLe_key_eq {a b : ScoredDoc} (h1 : fillerLe a b = true) (h2 : fillerLe b a = true) :
    fillerKey a = fillerKey b :=
  lexINQLe_antisymm h2 h1

/-! ## Properties of the year multiplier and per-document scoring -/

theorem ym_of_ge_2023 {y : Int} (h : 2023 ≤ y) : get_year_multiplier (some y) = 1 := by
  simp only [get_year_multiplier]
  rw [if_neg (by omega), if_pos h]

theorem ym_of_lt_2019 {y : Int} (h : y < 2019) : get_year_multiplier (some y) = 0 := by
  simp only [get_year_multiplier]
  split_ifs <;> first | rfl | omega

theorem ym_nonneg (oy : Option Int) : 0 ≤ get_year_multiplier oy := by
  rcases oy with _ | y
  · simp [get_year_multiplier]
  · simp only [get_year_multiplier]
    split_ifs <;> norm_num

theorem truthy_ym_nonneg (oy : Option Int) : 0 ≤ truthy_year_multiplier oy := by
  rcases oy with _ | y
  · simp [truthy_year_multiplier]
  · simp only [truthy_year_multiplier]
    split_ifs
    · norm_num
    · exact ym_nonneg (some y)

theorem ym_pos_iff (oy : Option Int) :
    0 < get_year_multiplier oy ↔ ∃ y, oy = some y ∧ 2019 ≤ y := by
  rcases oy with _ | y
  · simp [get_year_multiplier]
  · simp only [get_year_multiplier, Option.some.injEq]
    constructor
    · intro h
      refine ⟨y, rfl, ?_⟩
      by_contra hy
      split_ifs at h <;> first | exact absurd h (lt_irrefl 0) | omega
    · rintro ⟨y', hy', h⟩
      subst hy'
      split_ifs <;> first | (exfalso; omega) | norm_num

theorem par_sc_nonneg (dp : Option DataPoints) : 0 ≤ par_sc dp := by
  unfold par_sc
  split_ifs
  · positivity
  · exact le_refl 0

theorem scoreDoc_doc (d : Doc) : (scoreDoc d).doc = d := by
  unfold scoreDoc
  split_ifs <;> rfl

theorem scoreDoc_of_error {d : Doc} (h : hasError d = true) :
    scoreDoc d = ⟨d, 0, .ERROR, none⟩ := by
  unfold scoreDoc
  rw [if_pos h]

theorem scoreDoc_ftc (d : Doc) : (scoreDoc d).final_type_for_csv = none := by
  unfold scoreDoc
  split_ifs <;> rfl

theorem scoreDoc_finrep {d : Doc}
    (h : (scoreDoc d).selection_category = .POTENTIAL_FIN_REP) :
    hasError d = false ∧ d.content_type = some "ANNUAL_FINANCIAL_REPORT_DOCUMENT" ∧
    d.is_direct_file_link = some "YES" ∧ d.ref_year_int ≠ none ∧
    (scoreDoc d).calculated_score = 1 * get_year_multiplier d.ref_year_int := by
  unfold scoreDoc at h ⊢
  split_ifs at h ⊢ with h1 h2 h3 h4 <;> simp_all

theorem scoreDoc_finrep_of (d : Doc)
    (he : hasError d = false) (hc : d.content_type = some "ANNUAL_FINANCIAL_REPORT_DOCUMENT")
    (hd : d.is_direct_file_link = some "YES") (hy : d.ref_year_int ≠ none) :
    scoreDoc d = ⟨d, 1 * get_year_multiplier d.ref_year_int, .POTENTIAL_FIN_REP, none⟩ := by
  unfold scoreDoc
  rw [if_neg (by simp [he]), if_pos ⟨hc, hd, hy⟩]

theorem scoreDoc_landing {d : Doc}
    (h : (scoreDoc d).selection_category = .POTENTIAL_OTHER_REPORT_LANDING_PAGE) :
    hasError d = false ∧ d.ref_year_int ≠ none ∧
    (scoreDoc d).calculated_score = 1/2 * get_year_multiplier d.ref_year_int := by
  unfold scoreDoc at h ⊢
  split_ifs at h ⊢ with h1 h2 h3 h4 <;> simp_all

theorem scoreDoc_not_demoted (d : Doc) :
    ¬ (scoreDoc d).selection_category = .DEMOTED_FIN_REP_AS_OTHER := by
  unfold scoreDoc
  split_ifs <;> simp

theorem scoreDoc_nonneg (d : Doc) : 0 ≤ (scoreDoc d).calculated_score := by
  unfold scoreDoc
  split_ifs <;> simp only []
  · exact le_refl 0
  · have := ym_nonneg d.ref_year_int
    nlinarith
  · exact mul_nonneg (par_sc_nonneg _) (ym_nonneg _)
  · exact mul_nonneg (by norm_num) (ym_nonneg _)
  · exact mul_nonneg (par_sc_nonneg _) (truthy_ym_nonneg _)

/-! ## Membership and provenance in the pipeline stages -/

theorem mem_scoreAll {l : List Doc} {s : ScoredDoc} :
    s ∈ scoreAll l ↔ ∃ d ∈ l, s = scoreDoc d := by
  simp [scoreAll, List.mem_map, eq_comm]

theorem mem_potential_fin_reps {l : List Doc} {s : ScoredDoc} :
    s ∈ potential_fin_reps l ↔
      s ∈ scoreAll l ∧ s.selection_category = .POTENTIAL_FIN_REP := by
  simp [potential_fin_reps, List.mem_filter]

theorem mem_potential_other_sources {l : List Doc} {s : ScoredDoc} :
    s ∈ potential_other_sources l ↔
      s ∈ scoreAll l ∧ ¬ s.selection_category = .POTENTIAL_FIN_REP := by
  simp [potential_other_sources, List.mem_filter]

theorem mem_pool {l : List Doc} {s : ScoredDoc} (h : s ∈ all_potential_other_sources l) :
    (∃ t ∈ potential_fin_reps l, s = demote t) ∨
    (∃ t ∈ potential_other_sources l, s = markOther t) := by
  unfold all_potential_other_sources at h
  rcases List.mem_append.mp h with h' | h'
  · obtain ⟨t, ht, rfl⟩ := List.mem_map.mp h'
    exact Or.inl ⟨t, mem_sortS.mp (List.mem_filter.mp ht).1, rfl⟩
  · obtain ⟨t, ht, rfl⟩ := List.mem_map.mp h'
    exact Or.inr ⟨t, (List.mem_filter.mp ht).1, rfl⟩

theorem chosen_spec {l : List Doc} {c : ScoredDoc} (h : chosen_fin_rep l = some c) :
    ∃ top rest, sorted_fin_reps l = top :: rest ∧ 0 < top.calculated_score ∧
      c = { top with final_type_for_csv := some "FIN_REP" } := by
  rcases heq : sorted_fin_reps l with _ | ⟨top, rest⟩
  · simp only [chosen_fin_rep, heq] at h
    exact Option.noConfusion h
  · simp only [chosen_fin_rep, heq] at h
    split_ifs at h with hpos
    exact ⟨top, rest, rfl, hpos, (Option.some.inj h).symm⟩

theorem head_sortS_le (le : α → α → Bool)
    (htot : ∀ a b, le a b = true ∨ le b a = true)
    (htrans : ∀ a b c, le a b = true → le b c = true → le a c = true)
    {l : List α} {top : α} {rest : List α} (h : sortS le l = top :: rest) :
    ∀ s ∈ l, le top s = true := by
  intro s hs
  have hp := sortS_pairwise le htot htrans l
  rw [h, List.pairwise_cons] at hp
  have hmem : s ∈ sortS le l := mem_sortS.mpr hs
  rw [h] at hmem
  rcases List.mem_cons.mp hmem with rfl | hmem
  · rcases htot s s with h' | h' <;> exact h'
  · exact hp.1 s hmem

/-! ## Invariants of the selection and backfill loops -/

theorem selectLoop_seen_mono :
    ∀ (pool : List ScoredDoc) (seen : List String) (acc : List ScoredDoc) (u : String),
      u ∈ seen → u ∈ (selectLoop pool seen acc).2 := by
  intro pool
  induction pool with
  | nil => intro seen acc u hu; simpa [selectLoop] using hu
  | cons s rest ih =>
    intro seen acc u hu
    simp only [selectLoop]
    split_ifs with h1 h2 h3
    · simpa using hu
    · exact ih seen acc u hu
    · exact ih _ _ u (List.mem_cons_of_mem _ hu)
    · exact ih seen acc u hu

theorem selectLoop_spec :
    ∀ (pool : List ScoredDoc) (seen : List String) (acc : List ScoredDoc),
      ((acc.map fun s => s.doc.url).Nodup) →
      (∀ u ∈ acc.map fun s => s.doc.url, u ∈ seen) →
      ((selectLoop pool seen acc).1.map fun s => s.doc.url).Nodup ∧
      (∀ u ∈ (selectLoop pool seen acc).1.map fun s => s.doc.url,
        u ∈ (selectLoop pool seen acc).2) ∧
      (∀ u ∈ (selectLoop pool seen acc).1.map fun s => s.doc.url,
        u ∈ (acc.map fun s => s.doc.url) ∨ ¬ u ∈ seen) := by
  intro pool
  induction pool with
  | nil =>
    intro seen acc h1 h2
    exact ⟨h1, h2, fun u hu => Or.inl hu⟩
  | cons s rest ih =>
    intro seen acc h1 h2
    simp only [selectLoop]
    split_ifs with hlen hseen hcond
    · exact ⟨h1, h2, fun u hu => Or.inl hu⟩
    · exact ih seen acc h1 h2
    · have hu_new : ¬ s.doc.url ∈ seen := by
        simpa using hseen
      have h1' : ((acc ++ [s]).map fun t => t.doc.url).Nodup := by
        rw [List.map_append]
        refine List.Nodup.append h1 (by simp) ?_
        intro a ha hb
        simp only [List.map_cons, List.map_nil, List.mem_singleton] at hb
        subst hb
        exact hu_new (h2 _ ha)
      have h2' : ∀ u ∈ (acc ++ [s]).map fun t => t.doc.url, u ∈ s.doc.url :: seen := by
        intro u hu
        rw [List.map_append] at hu
        rcases List.mem_append.mp hu with h | h
        · exact List.mem_cons_of_mem _ (h2 u h)
        · simp only [List.map_cons, List.map_nil, List.mem_singleton] at h
          subst h
          exact List.mem_cons_self _ _
      obtain ⟨g1, g2, g3⟩ := ih (s.doc.url :: seen) (acc ++ [s]) h1' h2'
      refine ⟨g1, g2, ?_⟩
      intro u hu
      rcases g3 u hu with h | h
      · rw [List.map_append] at h
        rcases List.mem_append.mp h with h' | h'
        · exact Or.inl h'
        · simp only [List.map_cons, List.map_nil, List.mem_singleton] at h'
          subst h'
          exact Or.inr hu_new
      · exact Or.inr fun hc => h (List.mem_cons_of_mem _ hc)
    · exact ih seen acc h1 h2

theorem selectLoop_mem :
    ∀ (pool : List ScoredDoc) (seen : List String) (acc : List ScoredDoc) (s : ScoredDoc),
      s ∈ (selectLoop pool seen acc).1 →
      s ∈ acc ∨ (s ∈ pool ∧ (0 < s.calculated_score ∨ ¬ s.doc.ref_year_int = none)) := by
  intro pool
  induction pool with
  | nil => intro seen acc s h; exact Or.inl h
  | cons t rest ih =>
    intro seen acc s h
    simp only [selectLoop] at h
    split_ifs at h with hlen hseen hcond
    · exact Or.inl h
    · rcases ih _ _ _ h with h' | ⟨hm, hc⟩
      · exact Or.inl h'
      · exact Or.inr ⟨List.mem_cons_of_mem _ hm, hc⟩
    · rcases ih _ _ _ h with h' | ⟨hm, hc⟩
      · rcases List.mem_append.mp h' with h'' | h''
        · exact Or.inl h''
        · simp only [List.mem_singleton] at h''
          subst h''
          exact Or.inr ⟨List.mem_cons_self _ _, hcond⟩
      · exact Or.inr ⟨List.mem_cons_of_mem _ hm, hc⟩
    · rcases ih _ _ _ h with h' | ⟨hm, hc⟩
      · exact Or.inl h'
      · exact Or.inr ⟨List.mem_cons_of_mem _ hm, hc⟩

theorem fillLoop_spec :
    ∀ (pool : List ScoredDoc) (seen : List String) (acc : List ScoredDoc),
      ((acc.map fun s => s.doc.url).Nodup) →
      (∀ u ∈ acc.map fun s => s.doc.url, u ∈ seen) →
      ((fillLoop pool seen acc).map fun s => s.doc.url).Nodup ∧
      (∀ u ∈ (fillLoop pool seen acc).map fun s => s.doc.url,
        u ∈ (acc.map fun s => s.doc.url) ∨ ¬ u ∈ seen) := by
  intro pool
  induction pool with
  | nil =>
    intro seen acc h1 h2
    exact ⟨h1, fun u hu => Or.inl hu⟩
  | cons s rest ih =>
    intro seen acc h1 h2
    simp only [fillLoop]
    split_ifs with hlen hseen
    · exact ⟨h1, fun u hu => Or.inl hu⟩
    · exact ih seen acc h1 h2
    · have hu_new : ¬ s.doc.url ∈ seen := by
        simpa using hseen
      have h1' : ((acc ++ [s]).map fun t => t.doc.url).Nodup := by
        rw [List.map_append]
        refine List.Nodup.append h1 (by simp) ?_
        intro a ha hb
        simp only [List.map_cons, List.map_nil, List.mem_singleton] at hb
        subst hb
        exact hu_new (h2 _ ha)
      have h2' : ∀ u ∈ (acc ++ [s]).map fun t => t.doc.url, u ∈ s.doc.url :: seen := by
        intro u hu
        rw [List.map_append] at hu
        rcases List.mem_append.mp hu with h | h
        · exact List.mem_cons_of_mem _ (h2 u h)
        · simp only [List.map_cons, List.map_nil, List.mem_singleton] at h
          subst h
          exact List.mem_cons_self _ _
      obtain ⟨g1, g3⟩ := ih (s.doc.url :: seen) (acc ++ [s]) h1' h2'
      refine ⟨g1, ?_⟩
      intro u hu
      rcases g3 u hu with h | h
      · rw [List.map_append] at h
        rcases List.mem_append.mp h with h' | h'
        · exact Or.inl h'
        · simp only [List.map_cons, List.map_nil, List.mem_singleton] at h'
          subst h'
          exact Or.inr hu_new
      · exact Or.inr fun hc => h (List.mem_cons_of_mem _ hc)

theorem fillLoop_mem :
    ∀ (pool : List ScoredDoc) (seen : List String) (acc : List ScoredDoc) (s : ScoredDoc),
      s ∈ fillLoop pool seen acc → s ∈ acc ∨ s ∈ pool := by
  intro pool
  induction pool with
  | nil => intro seen acc s h; exact Or.inl h
  | cons t rest ih =>
    intro seen acc s h
    simp only [fillLoop] at h
    split_ifs at h with hlen hseen
    · exact Or.inl h
    · rcases ih _ _ _ h with h' | h'
      · exact Or.inl h'
      · exact Or.inr (List.mem_cons_of_mem _ h')
    · rcases ih _ _ _ h with h' | h'
      · rcases List.mem_append.mp h' with h'' | h''
        · exact Or.inl h''
        · simp only [List.mem_singleton] at h''
          subst h''
          exact Or.inr (List.mem_cons_self _ _)
      · exact Or.inr (List.mem_cons_of_mem _ h')

/-! ## Claim theorems -/

/-- C7: `get_year_multiplier` is monotonically non-increasing as the
year decreases (for all `y2 ≤ y1`, the multiplier of `y2` is at most
that of `y1`), equals the table `y ≥ 2023 → 1`, `2022 → 0.8`,
`2021 → 0.6`, `2020 → 0.4`, `2019 → 0.2`, and returns `0` for every
year below `2019` and for an unknown year. -/
theorem C7_year_multiplier_table :
    (∀ y1 y2 : Int, y2 ≤ y1 →
      get_year_multiplier (some y2) ≤ get_year_multiplier (some y1)) ∧
    (∀ y : Int, 2023 ≤ y → get_year_multiplier (some y) = 1) ∧
    get_year_multiplier (some 2022) = 4/5 ∧
    get_year_multiplier (some 2021) = 3/5 ∧
    get_year_multiplier (some 2020) = 2/5 ∧
    get_year_multiplier (some 2019) = 1/5 ∧
    (∀ y : Int, y < 2019 → get_year_multiplier (some y) = 0) ∧
    get_year_multiplier none = 0 := by
  refine ⟨?_, fun y h => ym_of_ge_2023 h, ?_, ?_, ?_, ?_, fun y h => ym_of_lt_2019 h, rfl⟩
  · intro y1 y2 h
    simp only [get_year_multiplier]
    split_ifs <;> first | (exfalso; omega) | norm_num
  all_goals norm_num [get_year_multiplier]

/-- Witness for C7 at concrete years. -/
theorem C7_year_multiplier_table_witness :
    get_year_multiplier (some 2019) ≤ get_year_multiplier (some 2023) ∧
    get_year_multiplier (some 2024) = 1 ∧ get_year_multiplier (some 1995) = 0 :=
  ⟨C7_year_multiplier_table.1 2023 2019 (by norm_num),
    C7_year_multiplier_table.2.1 2024 (by norm_num),
    C7_year_multiplier_table.2.2.2.2.2.2.1 1995 (by norm_num)⟩

/-- C1: for every organization the emitted output is exactly 6 rows,
one `TYPE=FIN_REP` followed by five `TYPE=OTHER`, regardless of the
number of candidate documents; with zero candidates all `SRC` and
`REFYEAR` fields are empty.  No row is ever missing. -/
theorem C1_output_is_one_finrep_plus_five_other :
    ∀ (cid name : String) (docs : List Doc),
      (company_output_rows cid name docs).map (fun r => r.TYPE) =
        ["FIN_REP", "OTHER", "OTHER", "OTHER", "OTHER", "OTHER"] ∧
      (docs = [] →
        (company_output_rows cid name docs).map (fun r => (r.SRC, r.REFYEAR)) =
          [("", ""), ("", ""), ("", ""), ("", ""), ("", ""), ("", "")]) := by
  intro cid name docs
  rcases docs with _ | ⟨d, ds⟩
  · exact ⟨rfl, fun _ => rfl⟩
  · exact ⟨rfl, fun h => List.noConfusion h⟩

/-- Witness for C1: the zero-candidate organization. -/
theorem C1_output_is_one_finrep_plus_five_other_witness :
    (company_output_rows "17" "ACME" []).map (fun r => (r.SRC, r.REFYEAR)) =
      [("", ""), ("", ""), ("", ""), ("", ""), ("", ""), ("", "")] :=
  (C1_output_is_one_finrep_plus_five_other "17" "ACME" []).2 rfl

/-- C3: no URL appears more than once across the chosen primary and
the selected alternates of one organization: both the alternates
selection and the backfill skip any URL already emitted. -/
theorem C3_no_duplicate_urls :
    ∀ docs : List Doc,
      (((chosen_fin_rep docs).map fun s => s.doc.url).toList ++
        (final_other_reports docs).map fun s => s.doc.url).Nodup := by
  intro docs
  obtain ⟨snodup, ssub, sfresh⟩ :=
    selectLoop_spec (sorted_pool docs) (seen0 docs) [] (by simp) (by simp)
  have hdef : final_other_reports docs =
      (if (selectLoop (sorted_pool docs) (seen0 docs) []).1.length < 5 then
        fillLoop
          (sortS fillerLe (backfill_pool docs (selectLoop (sorted_pool docs) (seen0 docs) []).2))
          (selectLoop (sorted_pool docs) (seen0 docs) []).2
          (selectLoop (sorted_pool docs) (seen0 docs) []).1
      else (selectLoop (sorted_pool docs) (seen0 docs) []).1) := rfl
  have key : ((final_other_reports docs).map fun s => s.doc.url).Nodup ∧
      (∀ u ∈ (final_other_reports docs).map fun s => s.doc.url,
        (u ∈ (selectLoop (sorted_pool docs) (seen0 docs) []).1.map fun s => s.doc.url) ∨
          ¬ u ∈ (selectLoop (sorted_pool docs) (seen0 docs) []).2) := by
    rw [hdef]
    split_ifs with h5
    · exact fillLoop_spec _ _ _ snodup ssub
    · exact ⟨snodup, fun u hu => Or.inl hu⟩
  rcases hc : chosen_fin_rep docs with _ | c
  · simpa using key.1
  · simp only [Option.map_some', Option.toList_some, List.singleton_append, List.nodup_cons]
    refine ⟨?_, key.1⟩
    intro hmem
    have hc_seen0 : c.doc.url ∈ seen0 docs := by
      simp [seen0, hc]
    rcases key.2 _ hmem with h | h
    · rcases sfresh _ h with h' | h'
      · simp at h'
      · exact h' hc_seen0
    · exact h (selectLoop_seen_mono _ _ _ _ hc_seen0)

theorem demote_doc (t : ScoredDoc) : (demote t).doc = t.doc := rfl

theorem markOther_doc (t : ScoredDoc) : (markOther t).doc = t.doc := rfl

theorem markOther_score (t : ScoredDoc) : (markOther t).calculated_score = t.calculated_score := rfl

theorem markOther_cat (t : ScoredDoc) :
    (markOther t).selection_category = t.selection_category := rfl

theorem ym_le_one (oy : Option Int) : get_year_multiplier oy ≤ 1 := by
  rcases oy with _ | y
  · simp [get_year_multiplier]
  · simp only [get_year_multiplier]
    split_ifs <;> norm_num

/-- A chosen primary always originates from a `POTENTIAL_FIN_REP`
classified document. -/
theorem chosen_from_doc {l : List Doc} {c : ScoredDoc} (h : chosen_fin_rep l = some c) :
    ∃ d ∈ l, hasError d = false ∧ c.doc = d ∧
      c.calculated_score = 1 * get_year_multiplier d.ref_year_int ∧
      0 < c.calculated_score ∧ c.selection_category = .POTENTIAL_FIN_REP := by
  obtain ⟨top, rest, heq, hpos, rfl⟩ := chosen_spec h
  have htop : top ∈ potential_fin_reps l :=
    mem_sortS.mp (heq ▸ List.mem_cons_self top rest)
  obtain ⟨hts, htc⟩ := mem_potential_fin_reps.mp htop
  obtain ⟨d, hd, rfl⟩ := mem_scoreAll.mp hts
  obtain ⟨he, _, _, _, hsc⟩ := scoreDoc_finrep htc
  exact ⟨d, hd, he, scoreDoc_doc d, hsc, hpos, htc⟩

/-- C5: a document whose error field is set (to a non-empty message,
as the classifier always does; such documents carry no `ref_year_int`)
is assigned category `ERROR` with score `0`, is never the chosen
primary, never appears among the selected alternates, and is excluded
from the backfill candidates. -/
theorem C5_error_documents_never_selected :
    ∀ docs : List Doc,
      (∀ d ∈ docs, hasError d = true → d.ref_year_int = none) →
      (∀ d ∈ docs, hasError d = true →
        (scoreDoc d).selection_category = .ERROR ∧ (scoreDoc d).calculated_score = 0) ∧
      (∀ c, chosen_fin_rep docs = some c → hasError c.doc = false) ∧
      (∀ s ∈ final_other_reports docs, hasError s.doc = false) ∧
      (∀ seen : List String, ∀ s ∈ backfill_pool docs seen, hasError s.doc = false) := by
  intro docs hwf
  have hbackfill : ∀ seen : List String, ∀ s ∈ backfill_pool docs seen,
      hasError s.doc = false := by
    intro seen s hs
    obtain ⟨t, ht, rfl⟩ := List.mem_map.mp hs
    have := (List.mem_filter.mp ht).2
    rw [Bool.and_eq_true, Bool.not_eq_true'] at this
    rw [markOther_doc]
    exact this.1
  refine ⟨?_, ?_, ?_, hbackfill⟩
  · intro d _ he
    rw [scoreDoc_of_error he]
    exact ⟨rfl, rfl⟩
  · intro c hc
    obtain ⟨d, _, he, hdoc, _⟩ := chosen_from_doc hc
    rw [hdoc]
    exact he
  · intro s hs
    have hdef : final_other_reports docs =
        (if (selectLoop (sorted_pool docs) (seen0 docs) []).1.length < 5 then
          fillLoop
            (sortS fillerLe
              (backfill_pool docs (selectLoop (sorted_pool docs) (seen0 docs) []).2))
            (selectLoop (sorted_pool docs) (seen0 docs) []).2
            (selectLoop (sorted_pool docs) (seen0 docs) []).1
        else (selectLoop (sorted_pool docs) (seen0 docs) []).1) := rfl
    rw [hdef] at hs
    have hsel : ∀ t, t ∈ (selectLoop (sorted_pool docs) (seen0 docs) []).1 →
        hasError t.doc = false := by
      intro t ht
      rcases selectLoop_mem _ _ _ _ ht with h' | ⟨hm, hcond⟩
      · exact absurd h' (List.not_mem_nil t)
      · have hm' := mem_sortS.mp hm
        rcases mem_pool hm' with ⟨u, hu, rfl⟩ | ⟨u, hu, rfl⟩
        · obtain ⟨hus, huc⟩ := mem_potential_fin_reps.mp hu
          obtain ⟨d, _, rfl⟩ := mem_scoreAll.mp hus
          rw [demote_doc, scoreDoc_doc]
          exact (scoreDoc_finrep huc).1
        · obtain ⟨hus, _⟩ := mem_potential_other_sources.mp hu
          obtain ⟨d, hd, rfl⟩ := mem_scoreAll.mp hus
          rw [markOther_doc, scoreDoc_doc]
          by_contra hne
          have he : hasError d = true := by simpa using hne
          have hzero := scoreDoc_of_error he
          rcases hcond with hpos | hyr
          · rw [markOther_score, hzero] at hpos
            exact lt_irrefl 0 hpos
          · rw [markOther_doc, scoreDoc_doc] at hyr
            exact hyr (hwf d hd he)
    split_ifs at hs with h5
    · rcases fillLoop_mem _ _ _ _ hs with h' | h'
      · exact hsel s h'
      · have := mem_sortS.mp h'
        exact hbackfill _ s this
    · exact hsel s hs

set_option maxRecDepth 100000 in
/-- Witness for C5: a fetch-error document alongside a good one. -/
theorem C5_error_documents_never_selected_witness :
    let bad : Doc :=
      { url := "b"
        error := some "Could not fetch content from b."
        type_tag := some "ERROR" }
    let good : Doc :=
      { url := "g"
        content_type := some "ANNUAL_FINANCIAL_REPORT_DOCUMENT"
        ref_year_int := some 2024
        is_direct_file_link := some "YES" }
    (∀ c, chosen_fin_rep [bad, good] = some c → hasError c.doc = false) ∧
    (∀ s ∈ final_other_reports [bad, good], hasError s.doc = false) := by
  refine ⟨?_, ?_⟩
  · exact (C5_error_documents_never_selected _ (by with_unfolding_all decide)).2.1
  · exact (C5_error_documents_never_selected _ (by with_unfolding_all decide)).2.2.1

/-- C6: every demoted non-chosen `POTENTIAL_FIN_REP` document in the
alternates pool has recomputed score `0.75 * yearMultiplier(refYear)`,
and for a landing-page document and a chosen primary of the same
refYear the strict ordering `0.5*m < 0.75*m < 1.0*m` holds. -/
theorem C6_demoted_score_ordering :
    ∀ docs : List Doc,
      (∀ s ∈ all_potential_other_sources docs,
        s.selection_category = .DEMOTED_FIN_REP_AS_OTHER →
        s.calculated_score = 3/4 * get_year_multiplier s.doc.ref_year_int) ∧
      (∀ c, chosen_fin_rep docs = some c → ∀ y : Int, c.doc.ref_year_int = some y →
        ∀ s ∈ scoreAll docs,
          s.selection_category = .POTENTIAL_OTHER_REPORT_LANDING_PAGE →
          s.doc.ref_year_int = some y →
          s.calculated_score < 3/4 * get_year_multiplier (some y) ∧
          3/4 * get_year_multiplier (some y) < c.calculated_score) := by
  intro docs
  constructor
  · intro s hs hcat
    rcases mem_pool hs with ⟨t, _, rfl⟩ | ⟨t, ht, rfl⟩
    · rfl
    · obtain ⟨hus, _⟩ := mem_potential_other_sources.mp ht
      obtain ⟨d, _, rfl⟩ := mem_scoreAll.mp hus
      rw [markOther_cat] at hcat
      exact absurd hcat (scoreDoc_not_demoted d)
  · intro c hc y hcy s hs hcat hsy
    obtain ⟨d, _, _, hdoc, hsc, hpos, _⟩ := chosen_from_doc hc
    rw [hdoc] at hcy
    rw [hcy] at hsc
    have hm : 0 < get_year_multiplier (some y) := by
      rw [hsc, one_mul] at hpos
      exact hpos
    obtain ⟨d', _, rfl⟩ := mem_scoreAll.mp hs
    obtain ⟨_, _, hls⟩ := scoreDoc_landing hcat
    rw [scoreDoc_doc] at hsy
    rw [hls, hsy, hsc]
    constructor <;> linarith

set_option maxRecDepth 100000 in
/-- Witness for C6: a chosen 2023 primary and a 2023 landing page;
the primary scores `1`, the landing page strictly less than the
`0.75` demoted level, which is strictly less than `1`. -/
theorem C6_demoted_score_ordering_witness :
    (scoreDoc ⟨"l", none, none, some "ANNUAL_FINANCIAL_REPORT_DOCUMENT", some 2023,
        some "NO", none, "UNKNOWN"⟩).calculated_score <
      3/4 * get_year_multiplier (some 2023) ∧
    3/4 * get_year_multiplier (some 2023) < 1 := by
  have h := (C6_demoted_score_ordering
      [⟨"p", none, none, some "ANNUAL_FINANCIAL_REPORT_DOCUMENT", some 2023,
          some "YES", none, "UNKNOWN"⟩,
        ⟨"l", none, none, some "ANNUAL_FINANCIAL_REPORT_DOCUMENT", some 2023,
          some "NO", none, "UNKNOWN"⟩]).2
    ⟨⟨"p", none, none, some "ANNUAL_FINANCIAL_REPORT_DOCUMENT", some 2023,
        some "YES", none, "UNKNOWN"⟩, 1, .POTENTIAL_FIN_REP, some "FIN_REP"⟩
    (by with_unfolding_all decide) 2023 rfl
    (scoreDoc ⟨"l", none, none, some "ANNUAL_FINANCIAL_REPORT_DOCUMENT", some 2023,
        some "NO", none, "UNKNOWN"⟩)
    (by with_unfolding_all decide) (by with_unfolding_all decide) rfl
  exact h

/-! #### Non-emptiness of decimal rendering (for C10) -/

theorem toDigitsCore_length_le (b : Nat) :
    ∀ (fuel n : Nat) (acc : List Char), acc.length ≤ (Nat.toDigitsCore b fuel n acc).length := by
  intro fuel
  induction fuel with
  | zero => intro n acc; simp [Nat.toDigitsCore]
  | succ f ih =>
    intro n acc
    simp only [Nat.toDigitsCore]
    split_ifs
    · simp
    · exact le_trans (by simp) (ih (n / b) ((n % b).digitChar :: acc))

theorem toDigits_ne_nil (b n : Nat) : Nat.toDigits b n ≠ [] := by
  unfold Nat.toDigits
  intro h
  simp only [Nat.toDigitsCore] at h
  split_ifs at h
  have hlen := toDigitsCore_length_le b n (n / b) [(n % b).digitChar]
  rw [h] at hlen
  simp at hlen

theorem nat_repr_ne_empty (n : Nat) : Nat.repr n ≠ "" := by
  intro h
  have hd := congrArg String.data h
  simp only [Nat.repr] at hd
  exact toDigits_ne_nil 10 n hd

theorem int_toString_ne_empty {y : Int} (h : 0 < y) : toString y ≠ "" := by
  obtain ⟨n, rfl⟩ := Int.eq_ofNat_of_zero_le h.le
  show Nat.repr n ≠ ""
  exact nat_repr_ne_empty n

/-- C10: a chosen primary always has a known integer refYear of at
least 2019 (its score `yearMultiplier(refYear)` must be positive), so
the `FIN_REP` row carries a non-empty `REFYEAR` whenever its `SRC` is
non-empty. -/
theorem C10_primary_has_recent_year :
    ∀ (cid name : String) (docs : List Doc) (c : ScoredDoc),
      chosen_fin_rep docs = some c →
      (∃ y, c.doc.ref_year_int = some y ∧ 2019 ≤ y) ∧
      ((finRepRow cid name (chosen_fin_rep docs)).SRC ≠ "" →
        (finRepRow cid name (chosen_fin_rep docs)).REFYEAR ≠ "") := by
  intro cid name docs c hc
  obtain ⟨d, _, _, hdoc, hsc, hpos, _⟩ := chosen_from_doc hc
  have hympos : 0 < get_year_multiplier d.ref_year_int := by
    rw [hsc, one_mul] at hpos
    exact hpos
  obtain ⟨y, hy, hy19⟩ := (ym_pos_iff _).mp hympos
  have hcy : c.doc.ref_year_int = some y := by rw [hdoc, hy]
  refine ⟨⟨y, hcy, hy19⟩, ?_⟩
  intro _
  rw [hc]
  simp only [finRepRow, hcy]
  exact int_toString_ne_empty (by omega)

set_option maxRecDepth 100000 in
/-- Witness for C10 at a single-candidate organization. -/
theorem C10_primary_has_recent_year_witness :
    ∃ y, (⟨⟨"u", none, none, some "ANNUAL_FINANCIAL_REPORT_DOCUMENT", some 2021,
        some "YES", none, "UNKNOWN"⟩, 3/5, .POTENTIAL_FIN_REP,
        some "FIN_REP"⟩ : ScoredDoc).doc.ref_year_int = some y ∧ 2019 ≤ y :=
  (C10_primary_has_recent_year "1" "A"
    [⟨"u", none, none, some "ANNUAL_FINANCIAL_REPORT_DOCUMENT", some 2021,
        some "YES", none, "UNKNOWN"⟩] _ (by with_unfolding_all decide)).1

theorem lexQILe_fst_le {x y : ℚ × Int} (h : lexQILe x y = true) : x.1 ≤ y.1 := by
  simp only [lexQILe, decide_eq_true_eq] at h
  rcases h with h | ⟨h, _⟩
  · exact le_of_lt h
  · exact le_of_eq h

set_option maxRecDepth 100000 in
/-- C2 counterexample: the list below contains exactly one document
with `contentType = ANNUAL_FINANCIAL_REPORT_DOCUMENT`,
`isDirectFileLink = YES` and `refYear = 2024`, yet that document does
not become the primary — a sibling with the same content type,
`isDirectFileLink = YES` and `refYear = 2025` wins the
`(score desc, refYear desc)` sort, because both score `1.0`
(`yearMultiplier` is `1` for every year `≥ 2023`) and `2025 > 2024`. -/
theorem C2_counterexample :
    (([⟨"u24", none, none, some "ANNUAL_FINANCIAL_REPORT_DOCUMENT", some 2024,
          some "YES", none, "UNKNOWN"⟩,
        ⟨"u25", none, none, some "ANNUAL_FINANCIAL_REPORT_DOCUMENT", some 2025,
          some "YES", none, "UNKNOWN"⟩] : List Doc).filter
      (fun d => decide (d.content_type = some "ANNUAL_FINANCIAL_REPORT_DOCUMENT" ∧
        d.is_direct_file_link = some "YES" ∧ d.ref_year_int = some 2024))).map
          (fun d => d.url) = ["u24"] ∧
    (chosen_fin_rep
      [⟨"u24", none, none, some "ANNUAL_FINANCIAL_REPORT_DOCUMENT", some 2024,
          some "YES", none, "UNKNOWN"⟩,
        ⟨"u25", none, none, some "ANNUAL_FINANCIAL_REPORT_DOCUMENT", some 2025,
          some "YES", none, "UNKNOWN"⟩]).map (fun s => s.doc.url) = some "u25" := by
  constructor <;> with_unfolding_all decide

/-- C2 (amended): the primary is the maximum of the
`POTENTIAL_FIN_REP` documents under the `(score, refYear)` order and
is chosen iff its score is strictly positive; and if exactly one
document has `contentType = ANNUAL_FINANCIAL_REPORT_DOCUMENT`,
`isDirectFileLink = YES` and `refYear = 2024`, and no other such
document has a refYear greater than 2024, that document becomes the
primary with score `1.0`. -/
theorem C2_primary_selection :
    (∀ (l : List Doc) (c : ScoredDoc), chosen_fin_rep l = some c →
      0 < c.calculated_score ∧
      (∃ s ∈ potential_fin_reps l, c.doc = s.doc ∧
        c.calculated_score = s.calculated_score) ∧
      (∀ s ∈ potential_fin_reps l, lexQILe (finKey s) (finKey c) = true)) ∧
    (∀ l : List Doc, (∀ s ∈ potential_fin_reps l, s.calculated_score = 0) →
      chosen_fin_rep l = none) ∧
    (∀ l : List Doc, chosen_fin_rep l = none →
      ∀ s ∈ potential_fin_reps l, s.calculated_score = 0) ∧
    (∀ (l : List Doc) (d : Doc), d ∈ l →
      hasError d = false →
      d.content_type = some "ANNUAL_FINANCIAL_REPORT_DOCUMENT" →
      d.is_direct_file_link = some "YES" →
      d.ref_year_int = some 2024 →
      (∀ d' ∈ l, d'.content_type = some "ANNUAL_FINANCIAL_REPORT_DOCUMENT" →
        d'.is_direct_file_link = some "YES" → d'.ref_year_int = some 2024 → d' = d) →
      (∀ d' ∈ l, d'.content_type = some "ANNUAL_FINANCIAL_REPORT_DOCUMENT" →
        d'.is_direct_file_link = some "YES" → ∀ y : Int, d'.ref_year_int = some y →
          y ≤ 2024) →
      ∃ c, chosen_fin_rep l = some c ∧ c.doc = d ∧ c.calculated_score = 1) := by
  refine ⟨?_, ?_, ?_, ?_⟩
  · intro l c hc
    obtain ⟨top, rest, heq, hpos, rfl⟩ := chosen_spec hc
    have htop : top ∈ potential_fin_reps l :=
      mem_sortS.mp (heq ▸ List.mem_cons_self top rest)
    refine ⟨hpos, ⟨top, htop, rfl, rfl⟩, ?_⟩
    intro s hs
    exact head_sortS_le finLe finLe_total finLe_trans heq s hs
  · intro l hz
    rcases heq : sorted_fin_reps l with _ | ⟨top, rest⟩
    · simp [chosen_fin_rep, heq]
    · have htop : top ∈ potential_fin_reps l :=
        mem_sortS.mp (heq ▸ List.mem_cons_self top rest)
      simp [chosen_fin_rep, heq, hz top htop]
  · intro l hnone s hs
    rcases heq : sorted_fin_reps l with _ | ⟨top, rest⟩
    · have : s ∈ sorted_fin_reps l := mem_sortS.mpr hs
      rw [heq] at this
      exact absurd this (List.not_mem_nil s)
    · have htop : top ∈ potential_fin_reps l :=
        mem_sortS.mp (heq ▸ List.mem_cons_self top rest)
      have htop0 : ¬ 0 < top.calculated_score := by
        intro hpos
        rw [show chosen_fin_rep l =
          some { top with final_type_for_csv := some "FIN_REP" } by
            simp [chosen_fin_rep, heq, hpos]] at hnone
        exact Option.noConfusion hnone
      have hle := lexQILe_fst_le (head_sortS_le finLe finLe_total finLe_trans heq s hs)
      obtain ⟨hs', _⟩ := mem_potential_fin_reps.mp hs
      obtain ⟨d, _, rfl⟩ := mem_scoreAll.mp hs'
      have h0 := scoreDoc_nonneg d
      have : top.calculated_score ≤ 0 := le_of_not_lt htop0
      exact le_antisymm (le_trans hle this) h0
  · intro l d hd he hc hdir hy huniq hmax
    have hsd : scoreDoc d =
        ⟨d, 1 * get_year_multiplier d.ref_year_int, .POTENTIAL_FIN_REP, none⟩ :=
      scoreDoc_finrep_of d he hc hdir (by simp [hy])
    have hscore : (scoreDoc d).calculated_score = 1 := by
      rw [hsd]
      simp only [hy]
      rw [ym_of_ge_2023 (by norm_num), one_mul]
    have hmem : scoreDoc d ∈ potential_fin_reps l :=
      mem_potential_fin_reps.mpr ⟨mem_scoreAll.mpr ⟨d, hd, rfl⟩, by rw [hsd]⟩
    rcases heq : sorted_fin_reps l with _ | ⟨top, rest⟩
    · have : scoreDoc d ∈ sorted_fin_reps l := mem_sortS.mpr hmem
      rw [heq] at this
      exact absurd this (List.not_mem_nil _)
    · have htopd : top = scoreDoc d := by
        by_contra hne
        have hle := head_sortS_le finLe finLe_total finLe_trans heq (scoreDoc d) hmem
        have htop : top ∈ potential_fin_reps l :=
          mem_sortS.mp (heq ▸ List.mem_cons_self top rest)
        obtain ⟨hts, htc⟩ := mem_potential_fin_reps.mp htop
        obtain ⟨d', hd', rfl⟩ := mem_scoreAll.mp hts
        obtain ⟨he', hc', hdir', hy', hsc'⟩ := scoreDoc_finrep htc
        have hd'd : ¬ d' = d := fun h => hne (by rw [h])
        obtain ⟨y', hy'⟩ := Option.ne_none_iff_exists'.mp hy'
        have hy'le : y' ≤ 2024 := hmax d' hd' hc' hdir' y' hy'
        have hy'ne : ¬ y' = 2024 := fun h => hd'd (huniq d' hd' hc' hdir' (h ▸ hy'))
        simp only [finLe, lexQILe, decide_eq_true_eq, finKey] at hle
        rcases hle with hlt | ⟨hfst, hsnd⟩
        · rw [hscore] at hlt
          rw [hsc', hy', one_mul] at hlt
          exact absurd hlt (not_lt.mpr (ym_le_one (some y')))
        · rw [scoreDoc_doc, scoreDoc_doc, hy, hy'] at hsnd
          simp only [Option.getD_some] at hsnd
          omega
      refine ⟨{ top with final_type_for_csv := some "FIN_REP" }, ?_, ?_, ?_⟩
      · have hpos : 0 < top.calculated_score := by
          rw [htopd, hscore]
          norm_num
        simp [chosen_fin_rep, heq, hpos]
      · rw [htopd]
        exact scoreDoc_doc d
      · rw [htopd]
        exact hscore

set_option maxRecDepth 100000 in
/-- Witness for C2 (amended) at a one-document organization. -/
theorem C2_primary_selection_witness :
    ∃ c, chosen_fin_rep
        [⟨"w", none, none, some "ANNUAL_FINANCIAL_REPORT_DOCUMENT", some 2024,
          some "YES", none, "UNKNOWN"⟩] = some c ∧
      c.doc = ⟨"w", none, none, some "ANNUAL_FINANCIAL_REPORT_DOCUMENT", some 2024,
        some "YES", none, "UNKNOWN"⟩ ∧ c.calculated_score = 1 :=
  C2_primary_selection.2.2.2 _ _ (List.mem_singleton.mpr rfl) rfl rfl rfl rfl
    (by intro d' hd' _ _ hy
        rw [List.mem_singleton.mp hd'])
    (by intro d' hd' _ _ y hy
        rw [List.mem_singleton.mp hd'] at hy
        simp only [Option.some.injEq] at hy
        omega)

/-! #### Bounds of the year regex (for C8) -/

theorem isDig_bounds {c : Char} (h : isDig c = true) : 48 ≤ c.toNat ∧ c.toNat ≤ 57 := by
  simpa [isDig] using h

theorem yearVal_bounds {a b c d : Char} (h : matchesYearPattern a b c d = true) :
    1980 ≤ yearVal a b c d ∧ yearVal a b c d ≤ 2099 := by
  have e1 : ('1' : Char).toNat = 49 := rfl
  have e2 : ('2' : Char).toNat = 50 := rfl
  have e8 : ('8' : Char).toNat = 56 := rfl
  have e9 : ('9' : Char).toNat = 57 := rfl
  have e0 : ('0' : Char).toNat = 48 := rfl
  simp only [matchesYearPattern, isDig, Bool.or_eq_true, Bool.and_eq_true,
    decide_eq_true_eq] at h
  rcases h with ⟨⟨⟨ha, hb⟩, hcc⟩, hd1, hd2⟩ | ⟨⟨⟨ha, hb⟩, hc1, hc2⟩, hd1, hd2⟩
  · subst ha
    subst hb
    rcases hcc with hc | hc <;> subst hc <;> simp only [yearVal, e1, e8, e9] <;> omega
  · subst ha
    subst hb
    simp only [yearVal, e2, e0]
    omega

theorem allYearMatchesAux_range :
    ∀ (cs : List Char) (prev : Option Char) (y : Nat),
      y ∈ allYearMatchesAux prev cs → 1980 ≤ y ∧ y ≤ 2099 := by
  intro cs
  induction cs with
  | nil =>
    intro prev y h
    simp [allYearMatchesAux] at h
  | cons a rest ih =>
    intro prev y h
    simp only [allYearMatchesAux] at h
    rcases List.mem_append.mp h with h' | h'
    · rcases rest with _ | ⟨b, rest1⟩
      · simp at h'
      rcases rest1 with _ | ⟨c, rest2⟩
      · simp at h'
      rcases rest2 with _ | ⟨d, rest3⟩
      · simp at h'
      simp only [] at h'
      split_ifs at h' with hcond
      · rw [List.mem_singleton.mp h']
        rw [Bool.and_eq_true, Bool.and_eq_true] at hcond
        exact yearVal_bounds hcond.1.2
      · simp at h'
    · exact ih (some a) y h'

set_option maxRecDepth 100000 in
/-- C8 counterexample: the link text "annual results 2099" contains
exactly one 4-digit regex year, 2099, which lies above any current
year; the claim says the bonus is not granted, but the code grants
the full `+2` — it checks only `int(year) >= target_years[0] - 5`
and has no upper bound. -/
theorem C8_counterexample :
    any_recent_year_bonus 2024 "annual results 2099" "" = 2 ∧
    allYearMatches "annual results 2099" = [2099] ∧
    allYearMatches "" = [] ∧
    spec_recent_year_bonus 2024 2026 "annual results 2099" "" = 0 := by
  refine ⟨?_, ?_, ?_, ?_⟩ <;> with_unfolding_all decide

/-- C8 (amended): when no configured target year matched, the `+2`
bonus is granted iff the leftmost regex-year match of the link text —
or, when the text has none, of the href — is at least
`firstTargetYear − 5`; the regex only matches years 1980–2099 and no
upper bound at the current year is applied. -/
theorem C8_recent_year_bonus :
    (∀ (ty0 : Int) (text href : String),
      any_recent_year_bonus ty0 text href = 2 ↔
        ∃ y : Nat, ((allYearMatches text).head?.orElse
          (fun _ => (allYearMatches href).head?)) = some y ∧ ty0 - 5 ≤ (y : Int)) ∧
    (∀ s : String, ∀ y ∈ allYearMatches s, 1980 ≤ y ∧ y ≤ 2099) := by
  constructor
  · intro ty0 text href
    unfold any_recent_year_bonus searchYear
    rcases h : (allYearMatches text).head?.orElse
        (fun _ => (allYearMatches href).head?) with _ | y
    · simp [h]
    · simp only [h]
      split_ifs with hge
      · constructor
        · intro _
          exact ⟨y, rfl, hge⟩
        · intro _
          rfl
      · constructor
        · intro habs
          exact absurd habs (by norm_num)
        · rintro ⟨y', hy', hge'⟩
          rw [Option.some.inj hy'] at hge
          exact absurd hge' hge
  · intro s y h
    exact allYearMatchesAux_range s.data none y h

set_option maxRecDepth 100000 in
/-- Witness for C8 (amended): a link text whose first regex year is
2020 earns the bonus, and a concrete year list obeys the regex
bounds. -/
theorem C8_recent_year_bonus_witness :
    any_recent_year_bonus 2024 "report 2020" "" = 2 ∧
    (1980 ≤ 1999 ∧ 1999 ≤ 2099) :=
  ⟨(C8_recent_year_bonus.1 2024 "report 2020" "").mpr
      ⟨2020, by with_unfolding_all decide, by norm_num⟩,
    C8_recent_year_bonus.2 "x 1999 x" 1999 (by with_unfolding_all decide)⟩

/-! #### Retry-loop bounds (for C9) -/

theorem call_llm_go_attempts (oracle : Nat → Except String LlmJson) (delay : Nat) :
    ∀ (fuel made : Nat) (sleeps : List Nat),
      (call_llm_go oracle delay fuel made sleeps).attemptsMade ≤ made + fuel := by
  intro fuel
  induction fuel with
  | zero => intro made sleeps; simp [call_llm_go]
  | succ f ih =>
    intro made sleeps
    simp only [call_llm_go]
    cases h : oracle made with
    | ok j => simp
    | error e =>
      simp only []
      split_ifs with hf
      · have := ih (made + 1) (sleeps ++ [delay])
        omega
      · simp

theorem call_llm_go_sleeps_all (oracle : Nat → Except String LlmJson) (delay : Nat) :
    ∀ (fuel made : Nat) (sleeps : List Nat),
      (∀ t ∈ sleeps, t = delay) →
      ∀ t ∈ (call_llm_go oracle delay fuel made sleeps).sleeps, t = delay := by
  intro fuel
  induction fuel with
  | zero => intro made sleeps hall; simpa [call_llm_go] using hall
  | succ f ih =>
    intro made sleeps hall
    simp only [call_llm_go]
    cases h : oracle made with
    | ok j => simpa using hall
    | error e =>
      simp only []
      split_ifs with hf
      · refine ih (made + 1) (sleeps ++ [delay]) ?_
        intro t ht
        rcases List.mem_append.mp ht with h' | h'
        · exact hall t h'
        · exact List.mem_singleton.mp h'
      · simpa using hall

theorem call_llm_go_sleeps_len (oracle : Nat → Except String LlmJson) (delay : Nat) :
    ∀ (fuel made : Nat) (sleeps : List Nat),
      (call_llm_go oracle delay fuel made sleeps).sleeps.length ≤
        sleeps.length + (fuel - 1) := by
  intro fuel
  induction fuel with
  | zero => intro made sleeps; simp [call_llm_go]
  | succ f ih =>
    intro made sleeps
    simp only [call_llm_go]
    cases h : oracle made with
    | ok j => simp
    | error e =>
      simp only []
      split_ifs with hf
      · have := ih (made + 1) (sleeps ++ [delay])
        simp only [List.length_append, List.length_singleton] at this
        omega
      · simp

/-- C9 (code_bug evidence): the external classification call is
attempted at most 3 times with a fixed 2-second inter-attempt delay,
and a fetch failure or a falsy/absent LLM response is recorded as a
document with `error` set and the `ERROR` tag instead of an exception;
but a successful fetch whose LLM response is the truthy JSON object
`{"ref_year": null}` raises an uncaught `TypeError` (`int(None)` at
line 186 — only `ValueError` is caught) that escapes
`process_company_urls`, contradicting the never-raises claim. -/
theorem C9_classifier_adapter :
    (∀ oracle : Nat → Except String LlmJson,
      (call_llm_for_analysis oracle).attemptsMade ≤ 3 ∧
      (call_llm_for_analysis oracle).sleeps.length ≤ 2 ∧
      (∀ t ∈ (call_llm_for_analysis oracle).sleeps, t = 2)) ∧
    (∀ (fetch : String → String × String) (oracle : Nat → Except String LlmJson)
      (url : String), (fetch url).1 = "Fetch Error" →
      classify_url fetch oracle url =
        .ok { url := url, error := some (fetch url).2, type_tag := some "ERROR" }) ∧
    (∀ (fetch : String → String × String) (oracle : Nat → Except String LlmJson)
      (url : String),
      ¬ (fetch url).1 = "Fetch Error" → ¬ (fetch url).1 = "Processing Error" →
      ((call_llm_for_analysis oracle).result = .jnothing ∨
        (call_llm_for_analysis oracle).result = .jfalsy) →
      classify_url fetch oracle url =
        .ok { url := url, error := some "LLM analysis failed", type_tag := some "ERROR" }) ∧
    classify_url (fun _ => ("Title", "snippet"))
        (fun _ => .ok (.jobj { ref_year := .jnull })) "u" =
      .error "TypeError: int() argument must not be NoneType (line 186)" := by
  refine ⟨?_, ?_, ?_, ?_⟩
  · intro oracle
    refine ⟨call_llm_go_attempts oracle 2 3 0 [], ?_, ?_⟩
    · exact call_llm_go_sleeps_len oracle 2 3 0 []
    · exact call_llm_go_sleeps_all oracle 2 3 0 [] (by intro t ht; simp at ht)
  · intro fetch oracle url hfe
    unfold classify_url
    rw [if_pos (Or.inl hfe)]
  · intro fetch oracle url h1 h2 hres
    unfold classify_url
    rw [if_neg (by rintro (h | h); exact h1 h; exact h2 h)]
    rcases hres with hres | hres <;> rw [hres]
  · rfl

/-- Witness for C9 at a concrete always-failing oracle and failing
fetch. -/
theorem C9_classifier_adapter_witness :
    (∀ t ∈ (call_llm_for_analysis (fun _ => .error "boom")).sleeps, t = 2) ∧
    classify_url (fun u => ("Fetch Error", "Could not fetch content from " ++ u ++ "."))
        (fun _ => .error "boom") "u" =
      .ok ⟨"u", some "Could not fetch content from u.", some "ERROR", none, none,
        none, none, "UNKNOWN"⟩ := by
  constructor
  · exact (C9_classifier_adapter.1 (fun _ => .error "boom")).2.2
  · exact C9_classifier_adapter.2.1 _ (fun _ => .error "boom") "u" rfl

/-! #### Permutation insensitivity of the pipeline (for C4) -/

theorem getD_year_eq {oa ob : Option Int} {v : Int} (ha : ¬ oa = none) (hb : ¬ ob = none)
    (h : oa.getD v = ob.getD v) : oa = ob := by
  obtain ⟨ya, rfl⟩ := Option.ne_none_iff_exists'.mp ha
  obtain ⟨yb, rfl⟩ := Option.ne_none_iff_exists'.mp hb
  simpa using h

theorem scoreAll_year {l : List Doc} (hy : ∀ d ∈ l, ¬ d.ref_year_int = none) :
    ∀ s ∈ scoreAll l, ¬ s.doc.ref_year_int = none := by
  intro s hs
  obtain ⟨d, hd, rfl⟩ := mem_scoreAll.mp hs
  rw [scoreDoc_doc]
  exact hy d hd

theorem scoreAll_inj {l : List Doc}
    (hinj : ∀ a ∈ l, ∀ b ∈ l, a.ref_year_int = b.ref_year_int → a = b) :
    ∀ s ∈ scoreAll l, ∀ t ∈ scoreAll l,
      s.doc.ref_year_int = t.doc.ref_year_int → s = t := by
  intro s hs t ht he
  obtain ⟨ds, hds, rfl⟩ := mem_scoreAll.mp hs
  obtain ⟨dt, hdt, rfl⟩ := mem_scoreAll.mp ht
  rw [scoreDoc_doc, scoreDoc_doc] at he
  rw [hinj ds hds dt hdt he]

theorem fin_antisym {l : List Doc} (hy : ∀ d ∈ l, ¬ d.ref_year_int = none)
    (hinj : ∀ a ∈ l, ∀ b ∈ l, a.ref_year_int = b.ref_year_int → a = b) :
    ∀ a ∈ potential_fin_reps l, ∀ b ∈ potential_fin_reps l,
      finLe a b = true → finLe b a = true → a = b := by
  intro a ha b hb h1 h2
  have hk := congrArg Prod.snd (finLe_key_eq h1 h2)
  have ha' := (mem_potential_fin_reps.mp ha).1
  have hb' := (mem_potential_fin_reps.mp hb).1
  simp only [finKey] at hk
  exact scoreAll_inj hinj a ha' b hb'
    (getD_year_eq (scoreAll_year hy a ha') (scoreAll_year hy b hb') hk)

theorem pool_antisym {l : List Doc} (hy : ∀ d ∈ l, ¬ d.ref_year_int = none)
    (hinj : ∀ a ∈ l, ∀ b ∈ l, a.ref_year_int = b.ref_year_int → a = b) :
    ∀ a ∈ all_potential_other_sources l, ∀ b ∈ all_potential_other_sources l,
      poolLe a b = true → poolLe b a = true → a = b := by
  intro a ha b hb h1 h2
  have hk := congrArg Prod.snd (poolLe_key_eq h1 h2)
  simp only [poolKey] at hk
  rcases mem_pool ha with ⟨ta, hta, rfl⟩ | ⟨ta, hta, rfl⟩ <;>
    rcases mem_pool hb with ⟨tb, htb, rfl⟩ | ⟨tb, htb, rfl⟩
  · obtain ⟨has, _⟩ := mem_potential_fin_reps.mp hta
    obtain ⟨hbs, _⟩ := mem_potential_fin_reps.mp htb
    rw [demote_doc, demote_doc] at hk
    rw [scoreAll_inj hinj ta has tb hbs
      (getD_year_eq (scoreAll_year hy ta has) (scoreAll_year hy tb hbs) hk)]
  · obtain ⟨has, hac⟩ := mem_potential_fin_reps.mp hta
    obtain ⟨hbs, hbc⟩ := mem_potential_other_sources.mp htb
    rw [demote_doc, markOther_doc] at hk
    have : ta = tb := scoreAll_inj hinj ta has tb hbs
      (getD_year_eq (scoreAll_year hy ta has) (scoreAll_year hy tb hbs) hk)
    rw [this] at hac
    exact absurd hac hbc
  · obtain ⟨has, hac⟩ := mem_potential_other_sources.mp hta
    obtain ⟨hbs, hbc⟩ := mem_potential_fin_reps.mp htb
    rw [markOther_doc, demote_doc] at hk
    have : ta = tb := scoreAll_inj hinj ta has tb hbs
      (getD_year_eq (scoreAll_year hy ta has) (scoreAll_year hy tb hbs) hk)
    rw [this] at hac
    exact absurd hbc hac
  · obtain ⟨has, _⟩ := mem_potential_other_sources.mp hta
    obtain ⟨hbs, _⟩ := mem_potential_other_sources.mp htb
    rw [markOther_doc, markOther_doc] at hk
    rw [scoreAll_inj hinj ta has tb hbs
      (getD_year_eq (scoreAll_year hy ta has) (scoreAll_year hy tb hbs) hk)]

theorem backfill_antisym {l : List Doc} (hy : ∀ d ∈ l, ¬ d.ref_year_int = none)
    (hinj : ∀ a ∈ l, ∀ b ∈ l, a.ref_year_int = b.ref_year_int → a = b)
    (seen : List String) :
    ∀ a ∈ backfill_pool l seen, ∀ b ∈ backfill_pool l seen,
      fillerLe a b = true → fillerLe b a = true → a = b := by
  intro a ha b hb h1 h2
  have hk := congrArg Prod.fst (fillerLe_key_eq h1 h2)
  simp only [fillerKey] at hk
  obtain ⟨ta, hta, rfl⟩ := List.mem_map.mp ha
  obtain ⟨tb, htb, rfl⟩ := List.mem_map.mp hb
  have has := (List.mem_filter.mp hta).1
  have hbs := (List.mem_filter.mp htb).1
  rw [markOther_doc, markOther_doc] at hk
  rw [scoreAll_inj hinj ta has tb hbs
    (getD_year_eq (scoreAll_year hy ta has) (scoreAll_year hy tb hbs) hk)]

set_option maxRecDepth 1000000 in
/-- C4 counterexample: two classified documents that tie on
`(score, refYear)` — both `ANNUAL_FINANCIAL_REPORT_DOCUMENT`, direct
links, refYear 2024, differing only in URL.  The two enumeration
orders of the same two-candidate set produce different primaries:
Python's `list.sort` is stable, so the tie is broken by input order. -/
theorem C4_counterexample :
    List.Perm
      [(⟨"a", none, none, some "ANNUAL_FINANCIAL_REPORT_DOCUMENT", some 2024,
          some "YES", none, "UNKNOWN"⟩ : Doc),
        ⟨"b", none, none, some "ANNUAL_FINANCIAL_REPORT_DOCUMENT", some 2024,
          some "YES", none, "UNKNOWN"⟩]
      [⟨"b", none, none, some "ANNUAL_FINANCIAL_REPORT_DOCUMENT", some 2024,
          some "YES", none, "UNKNOWN"⟩,
        ⟨"a", none, none, some "ANNUAL_FINANCIAL_REPORT_DOCUMENT", some 2024,
          some "YES", none, "UNKNOWN"⟩] ∧
    ((processSelect
      [⟨"a", none, none, some "ANNUAL_FINANCIAL_REPORT_DOCUMENT", some 2024,
          some "YES", none, "UNKNOWN"⟩,
        ⟨"b", none, none, some "ANNUAL_FINANCIAL_REPORT_DOCUMENT", some 2024,
          some "YES", none, "UNKNOWN"⟩]).1.map fun s => s.doc.url) = some "a" ∧
    ((processSelect
      [⟨"b", none, none, some "ANNUAL_FINANCIAL_REPORT_DOCUMENT", some 2024,
          some "YES", none, "UNKNOWN"⟩,
        ⟨"a", none, none, some "ANNUAL_FINANCIAL_REPORT_DOCUMENT", some 2024,
          some "YES", none, "UNKNOWN"⟩]).1.map fun s => s.doc.url) = some "b" := by
  refine ⟨List.Perm.swap _ _ _, ?_, ?_⟩ <;> with_unfolding_all decide

/-- C4 (amended): the selection pipeline is a pure function of its
input list, and is insensitive to the enumeration order of the
candidate set — any two enumeration orders produce the same primary
and the same alternates in the same order — provided every classified
document has a known refYear and no two distinct documents share a
refYear (with ties on the stable sorts' keys, the enumeration order
determines the outcome, as the counterexample shows). -/
theorem C4_selection_enumeration_order :
    ∀ l₁ l₂ : List Doc, List.Perm l₁ l₂ →
      (∀ d ∈ l₁, ¬ d.ref_year_int = none) →
      (∀ a ∈ l₁, ∀ b ∈ l₁, a.ref_year_int = b.ref_year_int → a = b) →
      processSelect l₁ = processSelect l₂ := by
  intro l₁ l₂ hp hy hinj
  have hfp : List.Perm (potential_fin_reps l₁) (potential_fin_reps l₂) := by
    unfold potential_fin_reps scoreAll
    exact (hp.map scoreDoc).filter _
  have hfin : sorted_fin_reps l₁ = sorted_fin_reps l₂ :=
    sortS_eq_of_perm finLe finLe_total finLe_trans hfp (fin_antisym hy hinj)
  have hchosen : chosen_fin_rep l₁ = chosen_fin_rep l₂ := by
    unfold chosen_fin_rep
    rw [hfin]
  have hpool : List.Perm (all_potential_other_sources l₁)
      (all_potential_other_sources l₂) := by
    have hos : List.Perm (potential_other_sources l₁) (potential_other_sources l₂) := by
      unfold potential_other_sources scoreAll
      exact (hp.map scoreDoc).filter _
    unfold all_potential_other_sources
    rw [hfin, hchosen]
    exact List.Perm.append_left _
      ((hos.filter (not_chosen_url (chosen_fin_rep l₂))).map markOther)
  have hsorted : sorted_pool l₁ = sorted_pool l₂ :=
    sortS_eq_of_perm poolLe poolLe_total poolLe_trans hpool (pool_antisym hy hinj)
  have hseen : seen0 l₁ = seen0 l₂ := by
    unfold seen0
    rw [hchosen]
  have hback : ∀ seen : List String,
      sortS fillerLe (backfill_pool l₁ seen) = sortS fillerLe (backfill_pool l₂ seen) := by
    intro seen
    have hbp : List.Perm (backfill_pool l₁ seen) (backfill_pool l₂ seen) := by
      unfold backfill_pool scoreAll
      exact ((hp.map scoreDoc).filter _).map markOther
    exact sortS_eq_of_perm fillerLe fillerLe_total fillerLe_trans hbp
      (backfill_antisym hy hinj seen)
  have hdef₁ : final_other_reports l₁ =
      (if (selectLoop (sorted_pool l₁) (seen0 l₁) []).1.length < 5 then
        fillLoop
          (sortS fillerLe (backfill_pool l₁ (selectLoop (sorted_pool l₁) (seen0 l₁) []).2))
          (selectLoop (sorted_pool l₁) (seen0 l₁) []).2
          (selectLoop (sorted_pool l₁) (seen0 l₁) []).1
      else (selectLoop (sorted_pool l₁) (seen0 l₁) []).1) := rfl
  have hdef₂ : final_other_reports l₂ =
      (if (selectLoop (sorted_pool l₂) (seen0 l₂) []).1.length < 5 then
        fillLoop
          (sortS fillerLe (backfill_pool l₂ (selectLoop (sorted_pool l₂) (seen0 l₂) []).2))
          (selectLoop (sorted_pool l₂) (seen0 l₂) []).2
          (selectLoop (sorted_pool l₂) (seen0 l₂) []).1
      else (selectLoop (sorted_pool l₂) (seen0 l₂) []).1) := rfl
  have hfinal : final_other_reports l₁ = final_other_reports l₂ := by
    rw [hdef₁, hdef₂, hsorted, hseen, hback]
  unfold processSelect
  rw [hchosen, hfinal]

set_option maxRecDepth 1000000 in
/-- Witness for C4 (amended): two orders of a two-candidate set with
distinct refYears yield identical results. -/
theorem C4_selection_enumeration_order_witness :
    processSelect
      [⟨"a", none, none, some "ANNUAL_FINANCIAL_REPORT_DOCUMENT", some 2024,
          some "YES", none, "UNKNOWN"⟩,
        ⟨"b", none, none, some "ANNUAL_FINANCIAL_REPORT_DOCUMENT", some 2023,
          some "YES", none, "UNKNOWN"⟩] =
    processSelect
      [⟨"b", none, none, some "ANNUAL_FINANCIAL_REPORT_DOCUMENT", some 2023,
          some "YES", none, "UNKNOWN"⟩,
        ⟨"a", none, none, some "ANNUAL_FINANCIAL_REPORT_DOCUMENT", some 2024,
          some "YES", none, "UNKNOWN"⟩] :=
  C4_selection_enumeration_order _ _ (List.Perm.swap _ _ _)
    (by with_unfolding_all decide) (by with_unfolding_all decide)

end Discovery
